import Mathlib

/-!
Shallow embedding of `examples/keras_recipes/sklearn_metric_callbacks.py`:
the `JaccardScoreCallback` class (constructor, `on_epoch_end`, `_write_metric`),
the running-mean accumulator it uses (`keras.metrics.Mean`), the per-class
Jaccard statistic (`sklearn.metrics.jaccard_score` with `average=None`), and
the pixel normalization of the dataset-loading section.

Numeric values are modelled with exact rationals; the held-out inputs are
abstract feature vectors and model inference is a function parameter, since
the trained network is external to the script's own logic.
-/

/-- An input sample of the held-out set (an image, flattened). -/
abbrev Input := List ℚ

/-- One record appended to the TensorBoard log stream by `tf.summary.scalar`:
metric name, step tag, scalar value. -/
abbrev LogEntry := String × ℕ × ℚ

/-- The `logs` dict Keras passes to callbacks (metric name to value). -/
abbrev KerasLogs := List (String × ℚ)

/-- State of a `keras.metrics.Mean` accumulator: its name, the running total
and the count of accumulated values. -/
structure MeanState where
  name : String
  total : ℚ
  count : ℕ
deriving DecidableEq, Repr

/-- Models `keras.metrics.Mean(name)`: a fresh accumulator with zero total
and zero count. -/
def keras_metrics_Mean (name : String) : MeanState :=
  { name := name, total := 0, count := 0 }

/-- Models `Mean.reset_state()`: zeroes the total and the count, keeps the name. -/
def MeanState.reset_state (m : MeanState) : MeanState :=
  { m with total := 0, count := 0 }

/-- Models `Mean.update_state(values)` with a vector argument and no sample
weights: adds the sum of the values to the total and their number to the count. -/
def MeanState.update_state (m : MeanState) (values : List ℚ) : MeanState :=
  { m with total := m.total + values.sum, count := m.count + values.length }

/-- Models `Mean.result()`: total divided by count (rational division;
`0 / 0 = 0` at the never-exercised empty case). -/
def MeanState.result (m : MeanState) : ℚ :=
  m.total / (m.count : ℚ)

/-- Index of the first maximum of a probability vector, as `np.argmax` /
`keras.ops.argmax` compute it on one row. -/
def argmax1 (l : List ℚ) : ℕ :=
  (l.enum.foldl (fun best p => if best.2 < p.2 then p else best) (0, l.headD 0)).1

/-- Models `ops.argmax(predictions, axis=-1)`: row-wise first-maximum index. -/
def argmaxLast (ps : List (List ℚ)) : List ℕ :=
  ps.map argmax1

/-- Largest label occurring in a label list (0 when empty). -/
def maxLabel (l : List ℕ) : ℕ :=
  l.foldr max 0

/-- The class labels `sklearn.metrics.jaccard_score` reports on in multiclass
mode: the sorted distinct labels occurring in either argument. -/
def jaccardLabels (a b : List ℕ) : List ℕ :=
  (List.range (maxLabel (a ++ b) + 1)).filter (fun c => decide (c ∈ a ++ b))

/-- Per-class Jaccard value for class `c`: `TP / (TP + FP + FN)` over the
paired samples, with sklearn's default `0` on an empty denominator. -/
def jaccardClass (a b : List ℕ) (c : ℕ) : ℚ :=
  let pairs := a.zip b
  let inter := pairs.countP (fun p => p.1 == c && p.2 == c)
  let union := pairs.countP (fun p => p.1 == c || p.2 == c)
  if union = 0 then 0 else (inter : ℚ) / (union : ℚ)

/-- Models `sklearn.metrics.jaccard_score(a, b, average=None)`: the vector of
per-class Jaccard values, one per reported class label. -/
def jaccard_score (a b : List ℕ) : List ℚ :=
  (jaccardLabels a b).map (jaccardClass a b)

/-- State of a `JaccardScoreCallback` object: exactly the attributes its
constructor assigns. The summary writer is identified by the path it was
created on; the stream it appends to is threaded separately. -/
structure JaccardScoreCallback where
  x_test : List Input
  y_test : List ℕ
  keras_metric : MeanState
  epoch : ℕ
  summary_writer : String
deriving DecidableEq, Repr

namespace JaccardScoreCallback

/-- Models `JaccardScoreCallback.__init__(name, x_test, y_test, log_dir)`. -/
def init (name : String) (x_test : List Input) (y_test : List ℕ)
    (log_dir : String) : JaccardScoreCallback :=
  { x_test := x_test
    y_test := y_test
    keras_metric := keras_metrics_Mean "jaccard_score"
    epoch := 0
    summary_writer := log_dir ++ "/" ++ name }

/-- Models `JaccardScoreCallback._write_metric(name, value)`: appends one
`(name, step=self.epoch, value)` record to the writer's log stream. -/
def write_metric (cb : JaccardScoreCallback) (name : String) (value : ℚ)
    (log : List LogEntry) : List LogEntry :=
  log ++ [(name, cb.epoch, value)]

/-- Models `JaccardScoreCallback.on_epoch_end(batch, logs)`. `predict` is the
model's inference function (`self.model.predict`); `log` is the writer's
stream. Returns the mutated callback state and the extended stream. -/
def on_epoch_end (predict : List Input → List (List ℚ))
    (cb : JaccardScoreCallback) (log : List LogEntry)
    (batch : ℕ) (logs : Option KerasLogs) :
    JaccardScoreCallback × List LogEntry :=
  let cb1 := { cb with epoch := cb.epoch + 1 }
  let cb2 := { cb1 with keras_metric := cb1.keras_metric.reset_state }
  let predictions := predict cb2.x_test
  let jaccard_value := jaccard_score (argmaxLast predictions) cb2.y_test
  let cb3 := { cb2 with keras_metric := cb2.keras_metric.update_state jaccard_value }
  (cb3, cb3.write_metric cb3.keras_metric.name cb3.keras_metric.result log)

/-- Models `on_epoch_end` with each underlying library call (`model.predict`,
`jaccard_score`, the summary write) allowed to fail, exactly as the Python
code threads them: no handler anywhere, every step runs only if the previous
one returned. -/
def on_epoch_end_exc {ε : Type} (predict : List Input → Except ε (List (List ℚ)))
    (jaccard : List ℕ → List ℕ → Except ε (List ℚ))
    (write : String → ℕ → ℚ → List LogEntry → Except ε (List LogEntry))
    (cb : JaccardScoreCallback) (log : List LogEntry)
    (batch : ℕ) (logs : Option KerasLogs) :
    Except ε (JaccardScoreCallback × List LogEntry) :=
  let cb1 := { cb with epoch := cb.epoch + 1 }
  let cb2 := { cb1 with keras_metric := cb1.keras_metric.reset_state }
  match predict cb2.x_test with
  | .error e => .error e
  | .ok predictions =>
    match jaccard (argmaxLast predictions) cb2.y_test with
    | .error e => .error e
    | .ok jaccard_value =>
      let cb3 := { cb2 with keras_metric := cb2.keras_metric.update_state jaccard_value }
      match write cb3.keras_metric.name cb3.epoch cb3.keras_metric.result log with
      | .error e => .error e
      | .ok log2 => .ok (cb3, log2)

/-- Runs `on_epoch_end` `n` times on a callback state and log stream, as the
`fit` loop does once per epoch (the ignored `batch` and `logs` arguments are
given arbitrary values). -/
def runEpochs (predict : List Input → List (List ℚ))
    (s : JaccardScoreCallback × List LogEntry) :
    ℕ → JaccardScoreCallback × List LogEntry
  | 0 => s
  | n + 1 =>
      let t := runEpochs predict s n
      on_epoch_end predict t.1 t.2 n none

end JaccardScoreCallback

/-- The attribute names assigned by `JaccardScoreCallback.__init__`, in source
order (`self.x_test`, `self.y_test`, `self.keras_metric`, `self.epoch`,
`self.summary_writer`). -/
def initAssignedFields : List String :=
  ["x_test", "y_test", "keras_metric", "epoch", "summary_writer"]

/-- Modelled from the spec: the four fields the spec's data model says the
callback object holds (held-out inputs, held-out labels, running-mean
accumulator, log destination), by the attribute names they bear in the code. -/
def specFourFields : List String :=
  ["x_test", "y_test", "keras_metric", "summary_writer"]

/-- Models the dataset normalization `x.astype("float32") / 255` on one pixel,
over exact rationals. -/
def normalizePixel (v : ℚ) : ℚ :=
  v / 255

section Lemmas

/-- Folding `max` with an arbitrary seed equals taking `max` of the seed with
the zero-seeded fold. -/
theorem foldr_max_seed (l : List ℕ) (i : ℕ) :
    l.foldr max i = max (l.foldr max 0) i := by
  induction l with
  | nil => simp
  | cons x xs ih =>
    simp only [List.foldr_cons, ih]
    omega

/-- The largest label of a concatenation does not depend on the order of the
two parts. -/
theorem maxLabel_append_comm (a b : List ℕ) :
    maxLabel (a ++ b) = maxLabel (b ++ a) := by
  unfold maxLabel
  rw [List.foldr_append, List.foldr_append]
  have h1 := foldr_max_seed a (b.foldr max 0)
  have h2 := foldr_max_seed b (a.foldr max 0)
  rw [h1, h2]
  omega

/-- The reported class labels of `jaccard_score` are symmetric in the two
arguments. -/
theorem jaccardLabels_comm (a b : List ℕ) :
    jaccardLabels a b = jaccardLabels b a := by
  unfold jaccardLabels
  rw [maxLabel_append_comm]
  exact List.filter_congr fun c _ =>
    decide_eq_decide.mpr (by simp [List.mem_append, or_comm])

/-- Each per-class Jaccard value is symmetric in the two label lists. -/
theorem jaccardClass_comm (a b : List ℕ) (c : ℕ) :
    jaccardClass a b c = jaccardClass b a c := by
  have hand : (b.zip a).countP (fun p => p.1 == c && p.2 == c)
      = (a.zip b).countP (fun p => p.1 == c && p.2 == c) := by
    rw [← List.zip_swap a b, List.countP_map]
    refine congrFun (congrArg List.countP (funext fun p => ?_)) _
    exact Bool.and_comm _ _
  have hor : (b.zip a).countP (fun p => p.1 == c || p.2 == c)
      = (a.zip b).countP (fun p => p.1 == c || p.2 == c) := by
    rw [← List.zip_swap a b, List.countP_map]
    refine congrFun (congrArg List.countP (funext fun p => ?_)) _
    exact Bool.or_comm _ _
  unfold jaccardClass
  simp only [hand, hor]

end Lemmas

/-- C8: the normalization `v / 255` maps every pixel value `0 ≤ v ≤ 255` into
the unit interval, over exact rational arithmetic. -/
theorem normalizePixel_mem_unitInterval (v : ℚ) (h0 : 0 ≤ v) (h1 : v ≤ 255) :
    0 ≤ normalizePixel v ∧ normalizePixel v ≤ 1 := by
  unfold normalizePixel
  constructor
  · positivity
  · rw [div_le_one (by norm_num)]
    exact le_trans h1 (by norm_num)

/-- Witness for C8 at the concrete pixel value 128. -/
theorem normalizePixel_mem_unitInterval_witness :
    (0 ≤ (128 : ℚ) ∧ (128 : ℚ) ≤ 255) ∧
      0 ≤ normalizePixel 128 ∧ normalizePixel 128 ≤ 1 :=
  ⟨⟨by norm_num, by norm_num⟩,
    normalizePixel_mem_unitInterval 128 (by norm_num) (by norm_num)⟩

/-- C10: the end-of-epoch hook ignores both of its parameters — on the same
callback state and log stream, any two choices of the `batch` and `logs`
arguments produce the same written entries and the same resulting state. -/
theorem on_epoch_end_ignores_arguments (predict : List Input → List (List ℚ))
    (cb : JaccardScoreCallback) (log : List LogEntry)
    (b1 b2 : ℕ) (l1 l2 : Option KerasLogs) :
    cb.on_epoch_end predict log b1 l1 = cb.on_epoch_end predict log b2 l2 :=
  rfl

/-- C2 counterexample: it is false that the constructor stores exactly four
fields all drawn from the spec's list (held-out inputs, held-out labels,
running-mean accumulator, log destination): it assigns five attributes. -/
theorem init_four_fields_cex :
    ¬ (initAssignedFields.length = 4 ∧
        ∀ f ∈ initAssignedFields, f ∈ specFourFields) := by
  decide

/-- C2 amended: the constructor stores exactly five fields — the spec's four
plus an epoch counter initialized to zero; the four spec fields are stored
from the constructor arguments, and the writer path joins `log_dir` and
`name`. -/
theorem init_five_fields (name : String) (x : List Input) (y : List ℕ)
    (dir : String) :
    initAssignedFields.length = 5 ∧
    initAssignedFields.filter (fun f => decide (f ∈ specFourFields))
      = specFourFields ∧
    initAssignedFields.filter (fun f => decide (f ∉ specFourFields))
      = ["epoch"] ∧
    (JaccardScoreCallback.init name x y dir).x_test = x ∧
    (JaccardScoreCallback.init name x y dir).y_test = y ∧
    (JaccardScoreCallback.init name x y dir).keras_metric
      = keras_metrics_Mean "jaccard_score" ∧
    (JaccardScoreCallback.init name x y dir).epoch = 0 ∧
    (JaccardScoreCallback.init name x y dir).summary_writer
      = dir ++ "/" ++ name := by
  refine ⟨by decide, by decide, by decide, rfl, rfl, rfl, rfl, rfl⟩

/-- C9: the per-class Jaccard statistic is symmetric in its two arguments, so
passing `(predicted, truth)` instead of the conventional `(truth, predicted)`
yields the same per-class values. -/
theorem jaccard_score_comm (a b : List ℕ) (h : a.length = b.length) :
    jaccard_score a b = jaccard_score b a := by
  unfold jaccard_score
  rw [jaccardLabels_comm]
  have hc : jaccardClass a b = jaccardClass b a :=
    funext fun c => jaccardClass_comm a b c
  rw [hc]

/-- Witness for C9 on the concrete pair `[0, 1]`, `[1, 1]`. -/
theorem jaccard_score_comm_witness :
    ([0, 1] : List ℕ).length = ([1, 1] : List ℕ).length ∧
      jaccard_score [0, 1] [1, 1] = jaccard_score [1, 1] [0, 1] :=
  ⟨by decide, jaccard_score_comm [0, 1] [1, 1] (by decide)⟩

/-- C1: the scalar appended by the end-of-epoch hook is the running-mean
reduction of the per-class Jaccard vector of that same invocation — hence the
unweighted arithmetic mean of the current epoch's per-class values — and is
unchanged under any values the accumulator held from earlier epochs. -/
theorem on_epoch_end_writes_current_epoch_mean
    (predict : List Input → List (List ℚ)) (cb : JaccardScoreCallback)
    (log : List LogEntry) (b : ℕ) (lg : Option KerasLogs) :
    (cb.on_epoch_end predict log b lg).2 =
      log ++ [(cb.keras_metric.name, cb.epoch + 1,
        (jaccard_score (argmaxLast (predict cb.x_test)) cb.y_test).sum /
          ((jaccard_score (argmaxLast (predict cb.x_test)) cb.y_test).length : ℚ))] ∧
    ((cb.keras_metric.reset_state).update_state
        (jaccard_score (argmaxLast (predict cb.x_test)) cb.y_test)).result
      = (jaccard_score (argmaxLast (predict cb.x_test)) cb.y_test).sum /
          ((jaccard_score (argmaxLast (predict cb.x_test)) cb.y_test).length : ℚ) ∧
    ∀ (t : ℚ) (c : ℕ),
      (JaccardScoreCallback.on_epoch_end predict
          { cb with keras_metric :=
              { cb.keras_metric with total := t, count := c } }
          log b lg).2
        = (cb.on_epoch_end predict log b lg).2 := by
  refine ⟨?_, ?_, ?_⟩
  · simp [JaccardScoreCallback.on_epoch_end, JaccardScoreCallback.write_metric,
      MeanState.reset_state, MeanState.update_state, MeanState.result]
  · simp [MeanState.reset_state, MeanState.update_state, MeanState.result]
  · intro t c
    rfl

/-- C5: one invocation of the hook equals, as one composed pipeline, running
inference over the held-out inputs, taking the row-wise argmax of the
predicted probabilities, computing the per-class Jaccard vector against the
held-out labels, reducing it with the running mean, and appending exactly one
record with that scalar to the log stream. -/
theorem on_epoch_end_pipeline
    (predict : List Input → List (List ℚ)) (cb : JaccardScoreCallback)
    (log : List LogEntry) (b : ℕ) (lg : Option KerasLogs) :
    cb.on_epoch_end predict log b lg =
      ({ cb with
          epoch := cb.epoch + 1,
          keras_metric := (cb.keras_metric.reset_state).update_state
            (jaccard_score (argmaxLast (predict cb.x_test)) cb.y_test) },
        log ++ [(cb.keras_metric.name, cb.epoch + 1,
          ((cb.keras_metric.reset_state).update_state
            (jaccard_score (argmaxLast (predict cb.x_test)) cb.y_test)).result)]) ∧
    (cb.on_epoch_end predict log b lg).2.length = log.length + 1 := by
  refine ⟨rfl, ?_⟩
  simp [JaccardScoreCallback.on_epoch_end, JaccardScoreCallback.write_metric]

/-- C6: an invocation of the hook changes only the accumulator and the epoch
counter of the callback; the held-out inputs, the held-out labels and the
writer field are left untouched. -/
theorem on_epoch_end_frame
    (predict : List Input → List (List ℚ)) (cb : JaccardScoreCallback)
    (log : List LogEntry) (b : ℕ) (lg : Option KerasLogs) :
    (cb.on_epoch_end predict log b lg).1.x_test = cb.x_test ∧
    (cb.on_epoch_end predict log b lg).1.y_test = cb.y_test ∧
    (cb.on_epoch_end predict log b lg).1.summary_writer = cb.summary_writer ∧
    (cb.on_epoch_end predict log b lg).1.epoch = cb.epoch + 1 ∧
    (cb.on_epoch_end predict log b lg).1.keras_metric
      = (cb.keras_metric.reset_state).update_state
          (jaccard_score (argmaxLast (predict cb.x_test)) cb.y_test) ∧
    (cb.on_epoch_end predict log b lg).1 =
      { cb with
          epoch := (cb.on_epoch_end predict log b lg).1.epoch,
          keras_metric := (cb.on_epoch_end predict log b lg).1.keras_metric } :=
  ⟨rfl, rfl, rfl, rfl, rfl, rfl⟩

/-- C3 counterexample: the hook is not stateless — at a concrete callback
state it does not leave the state as it found it, and the step tag it writes
differs between two states that differ only in mutable state left by prior
invocations (epoch counter 0 versus 5). -/
theorem on_epoch_end_not_stateless_cex :
    ¬ (JaccardScoreCallback.on_epoch_end (fun _ => [])
          ⟨[], [], ⟨"jaccard_score", 0, 0⟩, 0, "logs/m"⟩
          [] 0 none).1
        = ⟨[], [], ⟨"jaccard_score", 0, 0⟩, 0, "logs/m"⟩ ∧
    (JaccardScoreCallback.on_epoch_end (fun _ => [])
        ⟨[], [], ⟨"jaccard_score", 0, 0⟩, 0, "logs/m"⟩
        [] 0 none).2.map (fun e => e.2.1) = [1] ∧
    (JaccardScoreCallback.on_epoch_end (fun _ => [])
        ⟨[], [], ⟨"jaccard_score", 0, 0⟩, 5, "logs/m"⟩
        [] 0 none).2.map (fun e => e.2.1) = [6] := by
  refine ⟨fun h => ?_, rfl, rfl⟩
  have := congrArg JaccardScoreCallback.epoch h
  simp [JaccardScoreCallback.on_epoch_end] at this

/-- C3 amended: the scalar value written by the hook is independent of the
mutable state left by prior invocations (accumulator contents and epoch
counter), but the step tag equals the incoming epoch counter plus one, and
the invocation mutates the state: it increments the epoch counter and
overwrites the accumulator with the current epoch's statistic. -/
theorem on_epoch_end_value_stateless_tag_stateful
    (predict : List Input → List (List ℚ)) (cb : JaccardScoreCallback)
    (log : List LogEntry) (b : ℕ) (lg : Option KerasLogs)
    (t : ℚ) (c : ℕ) (e : ℕ) :
    ((JaccardScoreCallback.on_epoch_end predict
        { cb with
            epoch := e,
            keras_metric := { cb.keras_metric with total := t, count := c } }
        log b lg).2.getLast?).map (fun en => en.2.2)
      = ((cb.on_epoch_end predict log b lg).2.getLast?).map (fun en => en.2.2) ∧
    ((cb.on_epoch_end predict log b lg).2.getLast?).map (fun en => en.2.1)
      = some (cb.epoch + 1) ∧
    (cb.on_epoch_end predict log b lg).1 =
      { cb with
          epoch := cb.epoch + 1,
          keras_metric := (cb.keras_metric.reset_state).update_state
            (jaccard_score (argmaxLast (predict cb.x_test)) cb.y_test) } := by
  refine ⟨?_, ?_, rfl⟩
  · simp [JaccardScoreCallback.on_epoch_end, JaccardScoreCallback.write_metric,
      MeanState.reset_state, MeanState.update_state, MeanState.result]
  · simp [JaccardScoreCallback.on_epoch_end, JaccardScoreCallback.write_metric]

/-- C7: the hook has no error handling — with the underlying library calls
allowed to fail, it returns an error exactly when (and with exactly the error
that) the first failing call produced, and when every call returns it agrees
with the pure hook. -/
theorem on_epoch_end_propagates_errors (ε : Type)
    (predict : List Input → Except ε (List (List ℚ)))
    (jaccard : List ℕ → List ℕ → Except ε (List ℚ))
    (write : String → ℕ → ℚ → List LogEntry → Except ε (List LogEntry))
    (purePredict : List Input → List (List ℚ))
    (cb : JaccardScoreCallback) (log : List LogEntry) (b : ℕ)
    (lg : Option KerasLogs) (e : ε) :
    (JaccardScoreCallback.on_epoch_end_exc predict jaccard write cb log b lg
        = .error e ↔
      predict cb.x_test = .error e ∨
      ∃ p, predict cb.x_test = .ok p ∧
        (jaccard (argmaxLast p) cb.y_test = .error e ∨
         ∃ v, jaccard (argmaxLast p) cb.y_test = .ok v ∧
           write ((cb.keras_metric.reset_state.update_state v).name)
             (cb.epoch + 1)
             ((cb.keras_metric.reset_state.update_state v).result) log
             = .error e)) ∧
    @JaccardScoreCallback.on_epoch_end_exc ε
        (fun x => .ok (purePredict x)) (fun u v => .ok (jaccard_score u v))
        (fun nm st vl l => .ok (l ++ [(nm, st, vl)])) cb log b lg
      = .ok (JaccardScoreCallback.on_epoch_end purePredict cb log b lg) := by
  constructor
  · unfold JaccardScoreCallback.on_epoch_end_exc
    cases hp : predict cb.x_test with
    | error e1 => simp [hp]
    | ok p =>
      cases hj : jaccard (argmaxLast p) cb.y_test with
      | error e2 => simp [hp, hj]
      | ok v =>
        cases hw : write ((cb.keras_metric.reset_state.update_state v).name)
            (cb.epoch + 1)
            ((cb.keras_metric.reset_state.update_state v).result) log with
        | error e3 => simp [hp, hj, hw]
        | ok log2 => simp [hp, hj, hw]
  · rfl

/-- Scalar the hook computes for a fixed inference function and held-out
data: the mean of the per-class Jaccard vector. -/
def epochValue (predict : List Input → List (List ℚ)) (x : List Input)
    (y : List ℕ) : ℚ :=
  let v := jaccard_score (argmaxLast (predict x)) y
  v.sum / (v.length : ℚ)

/-- Characterization of `n` repeated hook invocations: the epoch counter
advances by `n`, the data fields and metric name are preserved, and the log
grows by one record per invocation with consecutive step tags. -/
theorem runEpochs_characterization (predict : List Input → List (List ℚ))
    (cb : JaccardScoreCallback) (log : List LogEntry) (n : ℕ) :
    (JaccardScoreCallback.runEpochs predict (cb, log) n).1.epoch
        = cb.epoch + n ∧
    (JaccardScoreCallback.runEpochs predict (cb, log) n).1.x_test
        = cb.x_test ∧
    (JaccardScoreCallback.runEpochs predict (cb, log) n).1.y_test
        = cb.y_test ∧
    (JaccardScoreCallback.runEpochs predict (cb, log) n).1.keras_metric.name
        = cb.keras_metric.name ∧
    (JaccardScoreCallback.runEpochs predict (cb, log) n).2 =
      log ++ (List.range n).map (fun i =>
        (cb.keras_metric.name, cb.epoch + i + 1,
          epochValue predict cb.x_test cb.y_test)) := by
  induction n with
  | zero => simp [JaccardScoreCallback.runEpochs]
  | succ n ih =>
    obtain ⟨h1, h2, h3, h4, h5⟩ := ih
    refine ⟨?_, ?_, ?_, ?_, ?_⟩ <;>
      simp [JaccardScoreCallback.runEpochs, JaccardScoreCallback.on_epoch_end,
        JaccardScoreCallback.write_metric, MeanState.reset_state,
        MeanState.update_state, MeanState.result, epochValue,
        h1, h2, h3, h4, h5, List.range_succ] <;>
      omega

/-- C4: starting from a freshly constructed callback and an empty log, `N`
invocations of the hook append exactly `N` records, and for every
`1 ≤ n ≤ N` the `n`-th appended record carries step tag `n`. -/
theorem runEpochs_log_length_and_tags (predict : List Input → List (List ℚ))
    (name : String) (x : List Input) (y : List ℕ) (dir : String) (N : ℕ) :
    (JaccardScoreCallback.runEpochs predict
        (JaccardScoreCallback.init name x y dir, []) N).2.length = N ∧
    ∀ n, 1 ≤ n → n ≤ N →
      ((JaccardScoreCallback.runEpochs predict
          (JaccardScoreCallback.init name x y dir, []) N).2[n - 1]?).map
          (fun en => en.2.1) = some n := by
  have h := (runEpochs_characterization predict
    (JaccardScoreCallback.init name x y dir) [] N).2.2.2.2
  constructor
  · rw [h]; simp
  · intro n h1 h2
    rw [h]
    have hlt : n - 1 < N := by omega
    simp [List.getElem?_map, List.getElem?_range hlt,
      JaccardScoreCallback.init]
    omega

/-- Witness for C4 with two epochs: the second appended record carries step
tag 2. -/
theorem runEpochs_log_length_and_tags_witness :
    ((1 : ℕ) ≤ 2 ∧ (2 : ℕ) ≤ 2) ∧
    ((JaccardScoreCallback.runEpochs (fun _ => [])
        (JaccardScoreCallback.init "m" [] [] "logs", []) 2).2[2 - 1]?).map
        (fun en => en.2.1) = some 2 :=
  ⟨⟨by decide, by decide⟩,
    (runEpochs_log_length_and_tags (fun _ => []) "m" [] [] "logs" 2).2 2
      (by decide) (by decide)⟩

example : normalizePixel 255 = 1 := by norm_num [normalizePixel]
example : argmax1 [0, 3, 2, 3] = 1 := by decide
example : jaccardLabels [0, 1, 1] [0, 1, 0] = [0, 1] := by decide
example : jaccard_score [0, 1, 1] [0, 1, 0] = [1/2, 1/2] := by
  have h : jaccardLabels [0, 1, 1] [0, 1, 0] = [0, 1] := by decide
  rw [jaccard_score, h]
  simp +decide [jaccardClass]
